import Mathlib

/-!
Shallow embedding of the `rt-new` ray tracer (Rust) for checking its
specification claims.

Modelling conventions:
* `f64` scalars are modelled by exact rationals `ℚ`.  The embedding is exact
  arithmetic: IEEE rounding, `NaN`, `±inf` and `-0.0` have no counterpart, and
  none of the verified claims depend on them.  Divisions by zero (which in
  Rust produce `±inf`/`NaN`) yield `0` in `ℚ`; the claims never exercise
  those branches.
* The two non-algebraic `f64` operations used by the code, `sqrt` and `powf`,
  are threaded through as an explicit operation record `FOps`; theorems that
  need a property of `sqrt` (for instance nonnegativity on nonnegative
  inputs, true of `f64::sqrt`) take it as a hypothesis.
* Rust references `&Object` are modelled as indices (`Nat`) into a store
  (`List Object`), mirroring the spec's own description of them as
  non-owning references into the world's object collection.  Rust's derived
  `PartialEq` on a struct with an `&Object` field compares the referents by
  value; the `peq` functions below reproduce exactly the derived
  `PartialEq` instances of the source (including the epsilon-approximate
  custom `PartialEq` of `Tuple`).
* `Shape::Group` is omitted: its `intersect`/`normal_at` are `todo!()`
  (panics) in the source, and no claim involves groups.
-/

namespace RT

/-- The non-algebraic `f64` operations used by the code (`sqrt`, `powf`),
kept abstract since they have no exact rational counterpart. -/
structure FOps where
  sqrt : ℚ → ℚ
  powf : ℚ → ℚ → ℚ

/-- `consts.rs`: `EPSILON = 1.0e-7`. -/
def EPSILON : ℚ := 1 / 10000000

/-- `tuple.rs`: `Tuple { x, y, z }`. -/
structure Tuple where
  x : ℚ
  y : ℚ
  z : ℚ
deriving DecidableEq, Repr

namespace Tuple

def new (x y z : ℚ) : Tuple := ⟨x, y, z⟩

/-- The custom `PartialEq for Tuple`: componentwise approximate equality
within `EPSILON`. -/
def approxEq (a b : Tuple) : Bool :=
  decide (|a.x - b.x| < EPSILON) && decide (|a.y - b.y| < EPSILON) &&
    decide (|a.z - b.z| < EPSILON)

def magnitude (ops : FOps) (t : Tuple) : ℚ :=
  ops.sqrt (t.x * t.x + t.y * t.y + t.z * t.z)

def dot (a b : Tuple) : ℚ := a.x * b.x + a.y * b.y + a.z * b.z

def add (a b : Tuple) : Tuple := new (a.x + b.x) (a.y + b.y) (a.z + b.z)

def sub (a b : Tuple) : Tuple := new (a.x - b.x) (a.y - b.y) (a.z - b.z)

/-- `impl Neg for Tuple`, with the source's explicit `-0.0` avoidance
branches (over `ℚ` they coincide with plain negation). -/
def neg (a : Tuple) : Tuple :=
  new (if a.x = 0 then 0 else -a.x) (if a.y = 0 then 0 else -a.y)
    (if a.z = 0 then 0 else -a.z)

def divS (a : Tuple) (q : ℚ) : Tuple := new (a.x / q) (a.y / q) (a.z / q)

def mulS (a : Tuple) (q : ℚ) : Tuple := new (a.x * q) (a.y * q) (a.z * q)

def mulT (a b : Tuple) : Tuple := new (a.x * b.x) (a.y * b.y) (a.z * b.z)

end Tuple

/-- `point.rs`: `Point { position: Tuple }`. -/
structure Point where
  position : Tuple
deriving DecidableEq, Repr

/-- `vector.rs`: `Vector { position: Tuple }`. -/
structure Vector where
  position : Tuple
deriving DecidableEq, Repr

/-- `color.rs`: `Color { rgb: Tuple }`. -/
structure Color where
  rgb : Tuple
deriving DecidableEq, Repr

namespace Point

def new (x y z : ℚ) : Point := ⟨Tuple.new x y z⟩

def default : Point := ⟨Tuple.new 0 0 0⟩

/-- Accessors `x()/y()/z()` (their defining impl lives in a module file not
present under `src/`; they project the tuple components, as every use site
and test requires). -/
def px (p : Point) : ℚ := p.position.x

def py (p : Point) : ℚ := p.position.y

def pz (p : Point) : ℚ := p.position.z

/-- `Point + Vector -> Point`. -/
def addV (p : Point) (v : Vector) : Point := ⟨p.position.add v.position⟩

/-- `Point - Vector -> Point`. -/
def subV (p : Point) (v : Vector) : Point := ⟨p.position.sub v.position⟩

/-- `Point - Point -> Vector`. -/
def subP (p q : Point) : Vector := ⟨p.position.sub q.position⟩

/-- Derived from the custom `PartialEq` of `Tuple`. -/
def peq (a b : Point) : Bool := Tuple.approxEq a.position b.position

end Point

namespace Vector

def new (x y z : ℚ) : Vector := ⟨Tuple.new x y z⟩

def vx (v : Vector) : ℚ := v.position.x

def vy (v : Vector) : ℚ := v.position.y

def vz (v : Vector) : ℚ := v.position.z

def magnitude (ops : FOps) (v : Vector) : ℚ := v.position.magnitude ops

def normalize (ops : FOps) (v : Vector) : Vector :=
  ⟨v.position.divS (v.magnitude ops)⟩

def dot_product (a b : Vector) : ℚ := a.position.dot b.position

def cross_product (a b : Vector) : Vector :=
  ⟨Tuple.new (a.position.y * b.position.z - a.position.z * b.position.y)
    (a.position.z * b.position.x - a.position.x * b.position.z)
    (a.position.x * b.position.y - a.position.y * b.position.x)⟩

def neg (v : Vector) : Vector := ⟨v.position.neg⟩

def mulS (v : Vector) (q : ℚ) : Vector := ⟨v.position.mulS q⟩

def sub (a b : Vector) : Vector := ⟨a.position.sub b.position⟩

def add (a b : Vector) : Vector := ⟨a.position.add b.position⟩

/-- `v.reflect(normal) = v - normal * 2.0 * v.dot(normal)`. -/
def reflect (v normal : Vector) : Vector :=
  v.sub ((normal.mulS 2).mulS (v.dot_product normal))

/-- Derived from the custom `PartialEq` of `Tuple`. -/
def peq (a b : Vector) : Bool := Tuple.approxEq a.position b.position

end Vector

namespace Color

def new (x y z : ℚ) : Color := ⟨Tuple.new x y z⟩

def add (a b : Color) : Color := ⟨a.rgb.add b.rgb⟩

def sub (a b : Color) : Color := ⟨a.rgb.sub b.rgb⟩

def mulS (a : Color) (q : ℚ) : Color := ⟨a.rgb.mulS q⟩

def mulC (a b : Color) : Color := ⟨a.rgb.mulT b.rgb⟩

/-- Derived `PartialEq for Color` delegates to the approximate `Tuple` one. -/
def peq (a b : Color) : Bool := Tuple.approxEq a.rgb b.rgb

end Color

/-- `consts.rs`. -/
def BLACK : Color := ⟨⟨0, 0, 0⟩⟩

/-- `consts.rs`. -/
def WHITE : Color := ⟨⟨1, 1, 1⟩⟩

/-- `matrice.rs`: `Matrice { size, data }`, a square array of scalars stored
as nested vectors. -/
structure Matrice where
  size : Nat
  data : List (List ℚ)
deriving DecidableEq, Repr

namespace Matrice

/-- `Matrice::new(size)`: a `size × size` zero matrix. -/
def new (size : Nat) : Matrice :=
  ⟨size, List.replicate size (List.replicate size 0)⟩

/-- `element_at(row, column) = data[row][column]` (in-bounds in all uses). -/
def element_at (m : Matrice) (r c : Nat) : ℚ := (m.data.getD r []).getD c 0

/-- `write_element(row, column, element)`. -/
def write_element (m : Matrice) (r c : Nat) (v : ℚ) : Matrice :=
  ⟨m.size, m.data.set r ((m.data.getD r []).set c v)⟩

/-- `submatrix(r, c)`: drop row `r` and column `c`. -/
def submatrix (m : Matrice) (r c : Nat) : Matrice :=
  ⟨m.size - 1,
    ((List.range m.size).filter (fun row => row ≠ r)).map (fun row =>
      ((List.range m.size).filter (fun col => col ≠ c)).map (fun col =>
        m.element_at row col))⟩

/-- Recursion worker for `determinant`.  The source recurses through
`cofactor`/`minor`/`submatrix`, each step shrinking the matrix size by one;
here the size itself is passed as structural fuel (`determinant` always
supplies exactly `m.size`, so every recursive call has exactly the fuel the
source recursion consumes; the `fuel = 0` value `0` coincides with the
empty cofactor sum that the source computes for a `0 × 0` matrix). -/
def detAux (fuel : Nat) (m : Matrice) : ℚ :=
  match fuel with
  | 0 => 0
  | fuel + 1 =>
    if m.size = 2 then
      m.element_at 0 0 * m.element_at 1 1 - m.element_at 0 1 * m.element_at 1 0
    else
      ((List.range m.size).map (fun c =>
        m.element_at 0 c *
          (if (0 + c) % 2 ≠ 0 then -(detAux fuel (m.submatrix 0 c))
           else detAux fuel (m.submatrix 0 c)))).sum

/-- `determinant`: direct formula at size 2, otherwise cofactor expansion
along row 0. -/
def determinant (m : Matrice) : ℚ := detAux m.size m

/-- `minor(row, column)`. -/
def minor (m : Matrice) (r c : Nat) : ℚ := (m.submatrix r c).determinant

/-- `cofactor(row, column)`. -/
def cofactor (m : Matrice) (r c : Nat) : ℚ :=
  if (r + c) % 2 ≠ 0 then -(m.minor r c) else m.minor r c

/-- `identity()`: 4×4 identity (built by writing 1s on the diagonal of a
zero matrix; expressed here cellwise). -/
def identity : Matrice :=
  ⟨4, (List.range 4).map (fun i => (List.range 4).map (fun j => if i = j then 1 else 0))⟩

/-- `transpose()`: `out[i][j] = self[j][i]`. -/
def transpose (m : Matrice) : Matrice :=
  ⟨m.size, (List.range m.size).map (fun i => (List.range m.size).map (fun j =>
    m.element_at j i))⟩

/-- The matrix built by the loop body of `inverse` once the determinant is
known to be nonzero: `out[col][row] = cofactor(row, col) / det`. -/
def inverseBody (m : Matrice) : Matrice :=
  ⟨m.size, (List.range m.size).map (fun r => (List.range m.size).map (fun c =>
    m.cofactor c r / m.determinant))⟩

/-- `inverse()`: panics (`none`) iff the determinant is zero, otherwise the
adjugate-over-determinant matrix. -/
def inverse? (m : Matrice) : Option Matrice :=
  if m.determinant = 0 then none else some m.inverseBody

/-- `impl Mul for Matrice`: `out[i][j] = Σₖ self[i][k] * rhs[k][j]` (all
loops bounded by `self.size`). -/
def mulM (a b : Matrice) : Matrice :=
  ⟨a.size, (List.range a.size).map (fun i => (List.range a.size).map (fun j =>
    ((List.range a.size).map (fun k => a.element_at i k * b.element_at k j)).sum))⟩

/-- `impl Mul<&Point> for &Matrice`: homogeneous coordinate 1; the loops
enumerate the actual rows of `data` as in the source. -/
def mulPoint (m : Matrice) (p : Point) : Point :=
  let tup : List ℚ := [p.position.x, p.position.y, p.position.z, 1]
  let out : Nat → ℚ := fun i =>
    ((List.range (m.data.getD i []).length).map (fun j =>
      (m.data.getD i []).getD j 0 * tup.getD j 0)).sum
  ⟨Tuple.new (out 0) (out 1) (out 2)⟩

/-- `impl Mul<&Vector> for &Matrice`: homogeneous coordinate 0. -/
def mulVector (m : Matrice) (v : Vector) : Vector :=
  let tup : List ℚ := [v.position.x, v.position.y, v.position.z, 0]
  let out : Nat → ℚ := fun i =>
    ((List.range (m.data.getD i []).length).map (fun j =>
      (m.data.getD i []).getD j 0 * tup.getD j 0)).sum
  ⟨Tuple.new (out 0) (out 1) (out 2)⟩

/-- Derived `PartialEq for Matrice` (all fields exact). -/
def peq (a b : Matrice) : Bool := decide (a = b)

end Matrice

/-- `transformations.rs`: `translation(x, y, z)`. -/
def translation (x y z : ℚ) : Matrice :=
  ((Matrice.identity.write_element 0 3 x).write_element 1 3 y).write_element 2 3 z

/-- `transformations.rs`: `scaling(x, y, z)`. -/
def scaling (x y z : ℚ) : Matrice :=
  ((Matrice.identity.write_element 0 0 x).write_element 1 1 y).write_element 2 2 z

/-- `ray.rs`: `Ray { origin, direction }`. -/
structure Ray where
  origin : Point
  direction : Vector
deriving DecidableEq, Repr

namespace Ray

/-- `position(t) = origin + direction * t`. -/
def position (r : Ray) (t : ℚ) : Point := r.origin.addV (r.direction.mulS t)

/-- `transform(m) = Ray(m * origin, m * direction)`. -/
def transform (r : Ray) (m : Matrice) : Ray :=
  ⟨m.mulPoint r.origin, m.mulVector r.direction⟩

end Ray

/-- Truncation toward zero, the behaviour of Rust's `f64 as i32` cast on
in-range values (saturation at `i32` bounds is a machine-width detail never
reached by the code's pattern arithmetic). -/
def truncQ (q : ℚ) : Int := if q ≤ 0 then -(Int.floor (-q)) else Int.floor q

/-- Rust `f64 % f64`: remainder with the sign of the dividend. -/
def fmod (a b : ℚ) : ℚ := a - b * ((truncQ (a / b) : ℤ) : ℚ)

/-- `shape.rs`: the shape enum.  `Group` is omitted: both its `intersect`
and `normal_at` arms are `todo!()` (unconditional panics) in the source, so
no verified claim can involve it. -/
inductive Shape where
  | Plane : Shape
  | Sphere : Shape
  | Cube : Shape
  | Cylinder : ℚ → ℚ → Bool → Shape
  | Cone : ℚ → ℚ → Bool → Shape
deriving DecidableEq, Repr

/-- `#[default]` variant of `Shape`. -/
def Shape.default : Shape := Shape.Sphere

/-- `normal_at_plane()`. -/
def normal_at_plane : Vector := Vector.new 0 1 0

/-- `intersect_plane(ray)`. -/
def intersect_plane (ray : Ray) : Option (List ℚ) :=
  if |ray.direction.position.y| < EPSILON then none
  else some [-ray.origin.position.y / ray.direction.position.y]

/-- `normal_at_sphere(point)`. -/
def normal_at_sphere (object_point : Point) : Vector :=
  object_point.subP (Point.new 0 0 0)

/-- The local `sphere_to_ray = origin - Point::default()` of
`intersect_sphere`. -/
def sphere_to_ray (ray : Ray) : Vector := ray.origin.subP Point.default

/-- The quadratic coefficient `a` of `intersect_sphere`. -/
def sphere_a (ray : Ray) : ℚ := ray.direction.dot_product ray.direction

/-- The quadratic coefficient `b` of `intersect_sphere`. -/
def sphere_b (ray : Ray) : ℚ := 2 * ray.direction.dot_product (sphere_to_ray ray)

/-- The quadratic coefficient `c` of `intersect_sphere`. -/
def sphere_c (ray : Ray) : ℚ :=
  (sphere_to_ray ray).dot_product (sphere_to_ray ray) - 1

/-- The `discriminant` of `intersect_sphere`. -/
def sphere_discriminant (ray : Ray) : ℚ :=
  sphere_b ray ^ 2 - 4 * sphere_a ray * sphere_c ray

/-- `intersect_sphere(ray)`: quadratic for the canonical unit sphere (its
local bindings are the named definitions above). -/
def intersect_sphere (ops : FOps) (ray : Ray) : Option (List ℚ) :=
  if sphere_discriminant ray < 0 then none
  else
    some [(-sphere_b ray - ops.sqrt (sphere_discriminant ray)) / (2 * sphere_a ray),
      (-sphere_b ray + ops.sqrt (sphere_discriminant ray)) / (2 * sphere_a ray)]

/-- `normal_at_cube(point)`. -/
def normal_at_cube (object_point : Point) : Vector :=
  let x := object_point.px
  let y := object_point.py
  let z := object_point.pz
  let maxc := max (max |x| |y|) |z|
  if maxc = |x| then Vector.new x 0 0
  else if maxc = |y| then Vector.new 0 y 0
  else Vector.new 0 0 z

/-- `check_axis(origin, direction)` (division by a zero direction component
produces `±inf`/`NaN` in `f64`; in `ℚ` it yields 0 — the claims do not
exercise axis-parallel cube rays). -/
def check_axis (origin direction : ℚ) : ℚ × ℚ :=
  let tmin_enumerator := -1 - origin
  let tmax_enumerator := 1 - origin
  let tmin := tmin_enumerator / direction
  let tmax := tmax_enumerator / direction
  if tmin > tmax then (tmax, tmin) else (tmin, tmax)

/-- `intersect_cube(ray)`. -/
def intersect_cube (ray : Ray) : Option (List ℚ) :=
  let xt := check_axis ray.origin.px ray.direction.vx
  let yt := check_axis ray.origin.py ray.direction.vy
  let zt := check_axis ray.origin.pz ray.direction.vz
  let tmax := min xt.2 (min yt.2 zt.2)
  if tmax < 0 then none
  else
    let tmin := max xt.1 (max yt.1 zt.1)
    if tmin ≤ tmax then some [tmin, tmax] else none

/-- `normal_at_cylinder(minimum, maximum, point)`. -/
def normal_at_cylinder (minimum maximum : ℚ) (object_point : Point) : Vector :=
  let x := object_point.px
  let y := object_point.py
  let z := object_point.pz
  let dist := x ^ 2 + z ^ 2
  if dist < 1 ∧ y ≥ maximum - EPSILON then Vector.new 0 1 0
  else if dist < 1 ∧ y ≤ minimum + EPSILON then Vector.new 0 (-1) 0
  else Vector.new x 0 z

/-- `check_cap(ray, t)`. -/
def check_cap (ray : Ray) (t : ℚ) : Bool :=
  let x := ray.origin.px + t * ray.direction.vx
  let z := ray.origin.pz + t * ray.direction.vz
  decide (x ^ 2 + z ^ 2 ≤ 1)

/-- `intersect_cap(minimum, maximum, closed, ray)`. -/
def intersect_cap (minimum maximum : ℚ) (closed : Bool) (ray : Ray) :
    Option (List ℚ) :=
  if !closed || decide (|ray.direction.vy| ≤ EPSILON) then none
  else
    let origin_y := ray.origin.py
    let tlo := (minimum - origin_y) / ray.direction.vy
    let res : List ℚ := if check_cap ray tlo then [tlo] else []
    let thi := (maximum - origin_y) / ray.direction.vy
    let res := res ++ (if check_cap ray thi then [thi] else [])
    if res.isEmpty then none else some res

/-- `intersect_cylinder(minimum, maximum, closed, ray)`. -/
def intersect_cylinder (minimum maximum : ℚ) (closed : Bool) (ops : FOps)
    (ray : Ray) : Option (List ℚ) :=
  let a := ray.direction.vx ^ 2 + ray.direction.vz ^ 2
  if |a| < EPSILON then intersect_cap minimum maximum closed ray
  else
    let b := 2 * ray.origin.px * ray.direction.vx +
      2 * ray.origin.pz * ray.direction.vz
    let c := ray.origin.px ^ 2 + ray.origin.pz ^ 2 - 1
    let disc := b ^ 2 - 4 * a * c
    if disc < 0 then none
    else
      let t0 := (-b - ops.sqrt disc) / (2 * a)
      let t1 := (-b + ops.sqrt disc) / (2 * a)
      let y0 := ray.origin.py + t0 * ray.direction.vy
      let res : List ℚ := if minimum < y0 ∧ y0 < maximum then [t0] else []
      let y1 := ray.origin.py + t1 * ray.direction.vy
      let res := res ++ (if minimum < y1 ∧ y1 < maximum then [t1] else [])
      let res := res ++ (intersect_cap minimum maximum closed ray).getD []
      if res.isEmpty then none else some res

/-- `check_cone_cap(ray, t, radius)`. -/
def check_cone_cap (ray : Ray) (t radius : ℚ) : Bool :=
  let x := ray.origin.px + t * ray.direction.vx
  let z := ray.origin.pz + t * ray.direction.vz
  decide (x ^ 2 + z ^ 2 ≤ radius ^ 2)

/-- `intersect_cone_cap(minimum, maximum, closed, ray)`. -/
def intersect_cone_cap (minimum maximum : ℚ) (closed : Bool) (ray : Ray) :
    Option (List ℚ) :=
  if !closed || decide (|ray.direction.vy| ≤ EPSILON) then none
  else
    let origin_y := ray.origin.py
    let tlo := (minimum - origin_y) / ray.direction.vy
    let res : List ℚ := if check_cone_cap ray tlo minimum then [tlo] else []
    let thi := (maximum - origin_y) / ray.direction.vy
    let res := res ++ (if check_cone_cap ray thi maximum then [thi] else [])
    if res.isEmpty then none else some res

/-- `intersect_cone(minimum, maximum, closed, ray)`. -/
def intersect_cone (minimum maximum : ℚ) (closed : Bool) (ops : FOps)
    (ray : Ray) : Option (List ℚ) :=
  let dx := ray.direction.vx
  let dy := ray.direction.vy
  let dz := ray.direction.vz
  let ox := ray.origin.px
  let oy := ray.origin.py
  let oz := ray.origin.pz
  let a := dx ^ 2 - dy ^ 2 + dz ^ 2
  let b := 2 * ox * dx - 2 * oy * dy + 2 * oz * dz
  let c := ox ^ 2 - oy ^ 2 + oz ^ 2
  if |a| ≤ EPSILON ∧ |b| ≥ EPSILON then
    some ([-c / (2 * b)] ++ (intersect_cone_cap minimum maximum closed ray).getD [])
  else
    let disc := b ^ 2 - 4 * a * c
    if disc < 0 then none
    else
      let t0 := (-b - ops.sqrt disc) / (2 * a)
      let t1 := (-b + ops.sqrt disc) / (2 * a)
      let y0 := oy + t0 * dy
      let res : List ℚ := if minimum < y0 ∧ y0 < maximum then [t0] else []
      let y1 := oy + t1 * dy
      let res := res ++ (if minimum < y1 ∧ y1 < maximum then [t1] else [])
      let res := res ++ (intersect_cone_cap minimum maximum closed ray).getD []
      if res.isEmpty then none else some res

/-- `normal_at_cone(minimum, maximum, point)`. -/
def normal_at_cone (ops : FOps) (minimum maximum : ℚ) (object_point : Point) :
    Vector :=
  let dist := object_point.px ^ 2 + object_point.pz ^ 2
  if dist < 1 ∧ object_point.py ≥ maximum - EPSILON then Vector.new 0 1 0
  else if dist < 1 ∧ object_point.py ≤ minimum + EPSILON then
    Vector.new 0 (-1) 0
  else
    Vector.new object_point.px
      (if object_point.py > 0 then -(ops.sqrt dist) else ops.sqrt dist)
      object_point.pz

/-- `Shape::intersect`. -/
def Shape.intersect (ops : FOps) (s : Shape) (ray : Ray) : Option (List ℚ) :=
  match s with
  | Shape.Plane => intersect_plane ray
  | Shape.Sphere => intersect_sphere ops ray
  | Shape.Cube => intersect_cube ray
  | Shape.Cylinder minimum maximum closed =>
    intersect_cylinder minimum maximum closed ops ray
  | Shape.Cone minimum maximum closed =>
    intersect_cone minimum maximum closed ops ray

/-- `Shape::normal_at`. -/
def Shape.normal_at (ops : FOps) (s : Shape) (object_point : Point) : Vector :=
  match s with
  | Shape.Plane => normal_at_plane
  | Shape.Sphere => normal_at_sphere object_point
  | Shape.Cube => normal_at_cube object_point
  | Shape.Cylinder minimum maximum _ =>
    normal_at_cylinder minimum maximum object_point
  | Shape.Cone minimum maximum _ => normal_at_cone ops minimum maximum object_point

/-- `pattern.rs`: the pattern kind enum. -/
inductive PatternType where
  | Ring : Color → Color → PatternType
  | Stripe : Color → Color → PatternType
  | Gradient : Color → Color → PatternType
  | Checker : Color → Color → PatternType
  | Test : PatternType
deriving DecidableEq, Repr

/-- `Default for PatternType`. -/
def PatternType.default : PatternType := PatternType.Stripe BLACK WHITE

/-- `pattern.rs`: `Pattern { pattern_type, transformation,
transformation_inverse }`. -/
structure Pattern where
  pattern_type : PatternType
  transformation : Matrice
  transformation_inverse : Matrice
deriving DecidableEq, Repr

/-- Derived `PartialEq for PatternType` (colors compare approximately). -/
def PatternType.peq : PatternType → PatternType → Bool
  | PatternType.Ring a b, PatternType.Ring c d => a.peq c && b.peq d
  | PatternType.Stripe a b, PatternType.Stripe c d => a.peq c && b.peq d
  | PatternType.Gradient a b, PatternType.Gradient c d => a.peq c && b.peq d
  | PatternType.Checker a b, PatternType.Checker c d => a.peq c && b.peq d
  | PatternType.Test, PatternType.Test => true
  | _, _ => false

/-- Derived `PartialEq for Pattern`. -/
def Pattern.peq (a b : Pattern) : Bool :=
  PatternType.peq a.pattern_type b.pattern_type &&
    decide (a.transformation = b.transformation) &&
    decide (a.transformation_inverse = b.transformation_inverse)

/-- `at_ring`. -/
def at_ring (ops : FOps) (c1 c2 : Color) (point : Point) : Color :=
  if truncQ (ops.sqrt (point.position.x * point.position.x +
      point.position.z * point.position.z)) % 2 == 0 then c1
  else c2

/-- `at_stripe` (`x.floor() as i32 % 2 == 0`; `% 2 == 0` is the same
evenness test for Rust's sign-of-dividend remainder and Lean's `emod`). -/
def at_stripe (c1 c2 : Color) (point : Point) : Color :=
  if Int.floor point.position.x % 2 == 0 then c1 else c2

/-- `at_gradient`. -/
def at_gradient (from_ to_ : Color) (point : Point) : Color :=
  let distance := to_.sub from_
  let fraction := point.position.x - ((Int.floor point.position.x : ℤ) : ℚ)
  from_.add (distance.mulS fraction)

/-- `at_checker` (`float_cmp::approx_eq!` with `epsilon = EPSILON`; the
additional default ulps margin of `float_cmp` is an IEEE-representation
detail with no exact-rational counterpart and is dropped). -/
def at_checker (c1 c2 : Color) (point : Point) : Color :=
  let sum := ((Int.floor point.position.x : ℤ) : ℚ) +
    ((Int.floor |point.position.y| : ℤ) : ℚ) +
    ((Int.floor point.position.z : ℤ) : ℚ)
  if |fmod sum 2 - 0| ≤ EPSILON then c1 else c2

/-- `at_test`. -/
def at_test (point : Point) : Color := ⟨point.position⟩

/-- `PatternType::at`. -/
def PatternType.at (ops : FOps) (pt : PatternType) (point : Point) : Color :=
  match pt with
  | PatternType.Ring c1 c2 => at_ring ops c1 c2 point
  | PatternType.Stripe c1 c2 => at_stripe c1 c2 point
  | PatternType.Gradient from_ to_ => at_gradient from_ to_ point
  | PatternType.Checker c1 c2 => at_checker c1 c2 point
  | PatternType.Test => at_test point

/-- `material.rs`: `Material`. -/
structure Material where
  color : Color
  ambient : ℚ
  diffuse : ℚ
  specular : ℚ
  shininess : ℚ
  pattern : Option Pattern
  reflective : ℚ
  transparency : ℚ
  refractive_index : ℚ
deriving DecidableEq, Repr

/-- `Default for Material`. -/
def Material.default : Material :=
  ⟨WHITE, 1/10, 9/10, 9/10, 200, none, 0, 0, 1⟩

/-- Derived `PartialEq` on `Option<Pattern>`. -/
def optionPeq (p : α → α → Bool) : Option α → Option α → Bool
  | none, none => true
  | some a, some b => p a b
  | _, _ => false

/-- Derived `PartialEq for Material`. -/
def Material.peq (a b : Material) : Bool :=
  a.color.peq b.color && decide (a.ambient = b.ambient) &&
    decide (a.diffuse = b.diffuse) && decide (a.specular = b.specular) &&
    decide (a.shininess = b.shininess) && optionPeq Pattern.peq a.pattern b.pattern &&
    decide (a.reflective = b.reflective) && decide (a.transparency = b.transparency) &&
    decide (a.refractive_index = b.refractive_index)

/-- `light.rs`: `Light { position, intensity }`. -/
structure Light where
  position : Point
  intensity : Color
deriving DecidableEq, Repr

/-- `object.rs`: `Object` with its world transform and the two derived
caches. -/
structure Object where
  material : Material
  shape : Shape
  transformation : Matrice
  transformation_inverse : Matrice
  transformation_inverse_transpose : Matrice
deriving DecidableEq, Repr

namespace Object

/-- `derive(Default) for Object` (identity matrices, default material,
default shape `Sphere`). -/
def default : Object :=
  ⟨Material.default, Shape.default, Matrice.identity, Matrice.identity,
    Matrice.identity⟩

/-- `Object::new(material, shape, transformation)`: starts from the default
object, stores the transform, then recomputes **both** caches.  `none`
models the `inverse()` panic on a singular transform. -/
def new? (material : Material) (shape : Shape) (transformation : Matrice) :
    Option Object :=
  match transformation.inverse? with
  | none => none
  | some inv => some ⟨material, shape, transformation, inv, inv.transpose⟩

/-- `Object::set_transformation(transformation)`: stores the transform and
recomputes `transformation_inverse` — and, as in the source, does *not*
touch `transformation_inverse_transpose`. -/
def set_transformation? (o : Object) (transformation : Matrice) :
    Option Object :=
  match transformation.inverse? with
  | none => none
  | some inv =>
    some { o with transformation := transformation, transformation_inverse := inv }

/-- `Object::intersect`. -/
def intersect (ops : FOps) (o : Object) (ray : Ray) : Option (List ℚ) :=
  o.shape.intersect ops (ray.transform o.transformation_inverse)

/-- `Object::world_to_object`. -/
def world_to_object (o : Object) (world_point : Point) : Point :=
  o.transformation_inverse.mulPoint world_point

/-- `Object::normal_to_world`. -/
def normal_to_world (ops : FOps) (o : Object) (local_normal : Vector) : Vector :=
  (o.transformation_inverse_transpose.mulVector local_normal).normalize ops

/-- `Object::normal_at`. -/
def normal_at (ops : FOps) (o : Object) (world_point : Point) : Vector :=
  o.normal_to_world ops (o.shape.normal_at ops (o.world_to_object world_point))

/-- Derived `PartialEq for Object` (material approximately through colors,
every other field exactly). -/
def peq (a b : Object) : Bool :=
  Material.peq a.material b.material && decide (a.shape = b.shape) &&
    decide (a.transformation = b.transformation) &&
    decide (a.transformation_inverse = b.transformation_inverse) &&
    decide (a.transformation_inverse_transpose = b.transformation_inverse_transpose)

end Object

/-- `Pattern::at(object, point)`. -/
def Pattern.at (ops : FOps) (pat : Pattern) (object : Object) (point : Point) :
    Color :=
  let object_point := object.transformation_inverse.mulPoint point
  let pattern_point := pat.transformation_inverse.mulPoint object_point
  pat.pattern_type.at ops pattern_point

/-- `Material::lighting`. -/
def Material.lighting (ops : FOps) (m : Material) (light : Light)
    (object : Object) (point : Point) (eyev normalv : Vector)
    (in_shadow : Bool) : Color :=
  let color := match m.pattern with
    | some p => p.at ops object point
    | none => m.color
  let effective_color := color.mulC light.intensity
  let ambient := effective_color.mulS m.ambient
  if in_shadow then ambient
  else
    let lightv := (light.position.subP point).normalize ops
    let light_dot_normal := lightv.dot_product normalv
    let ds : Color × Color :=
      if light_dot_normal < 0 then (BLACK, BLACK)
      else
        let diffuse := (effective_color.mulS m.diffuse).mulS light_dot_normal
        let reflectv := lightv.neg.reflect normalv
        let reflectv_dot_eye := reflectv.dot_product eyev
        let specular :=
          if reflectv_dot_eye ≤ 0 then BLACK
          else (light.intensity.mulS m.specular).mulS
            (ops.powf reflectv_dot_eye m.shininess)
        (diffuse, specular)
    (ambient.add ds.1).add ds.2

/-- `intersection.rs`: `Intersection { object: &Object, t }`.  The `&Object`
reference is modelled as an index into an object store (`List Object`). -/
structure Intersection where
  object : Nat
  t : ℚ
deriving DecidableEq, Repr

/-- Derived `PartialEq for Intersection<'_>`: the `&Object` field compares
the referents by value (`Object`'s derived `PartialEq`), `t` exactly. -/
def Intersection.peq (store : List Object) (a b : Intersection) : Bool :=
  Object.peq (store.getD a.object Object.default) (store.getD b.object Object.default)
    && decide (a.t = b.t)

/-- `Intersection::intersects(object, ray)`: tag every local root with the
object reference. -/
def Intersection.intersects (ops : FOps) (store : List Object) (objRef : Nat)
    (r : Ray) : Option (List Intersection) :=
  match (store.getD objRef Object.default).intersect ops r with
  | some ts => some (ts.map (fun t => ⟨objRef, t⟩))
  | none => none

/-- `sort_intersections`: stable sort ascending by `t` (`f64::total_cmp`;
on `ℚ` this is the usual order). -/
def sort_intersections (xs : List Intersection) : List Intersection :=
  xs.mergeSort (fun a b => decide (a.t ≤ b.t))

/-- `hit(xs)`: the first intersection with `t > 0`. -/
def hit (xs : List Intersection) : Option Intersection :=
  xs.find? (fun i => decide (i.t > 0))

/-- The container toggle step of `Computation::new`: if some element of
`containers` is value-equal (`Object` `PartialEq`) to the referent of
`objRef`, remove its first occurrence, else push `objRef`. -/
def toggleContainer (store : List Object) (containers : List Nat)
    (objRef : Nat) : List Nat :=
  match containers.findIdx? (fun a =>
      Object.peq (store.getD a Object.default) (store.getD objRef Object.default)) with
  | some idx => containers.eraseIdx idx
  | none => containers ++ [objRef]

/-- `containers.last()`'s refractive index, or the given default (the
initial value 1.0 of `n1`/`n2`, which is kept when the list is empty). -/
def lastRefr (store : List Object) (containers : List Nat) (dflt : ℚ) : ℚ :=
  match containers.getLast? with
  | some l => (store.getD l Object.default).material.refractive_index
  | none => dflt

/-- The `n1`/`n2` loop of `Computation::new`, as a recursion over the
intersection list with the container stack as accumulator: on reaching the
first element equal (`PartialEq`) to the target hit, read `n1` from the top
of the stack, toggle that element's object, read `n2`, and stop; otherwise
toggle and continue.  `(1, 1)` are the initial values of `n1`/`n2`, kept
when the target is never reached (or the stack is empty at the read). -/
def n1n2Loop (store : List Object) (i : Intersection) (containers : List Nat) :
    List Intersection → ℚ × ℚ
  | [] => (1, 1)
  | x :: rest =>
    if Intersection.peq store i x then
      let n1 := lastRefr store containers 1
      let containers2 := toggleContainer store containers x.object
      (n1, lastRefr store containers2 1)
    else
      n1n2Loop store i (toggleContainer store containers x.object) rest

/-- `computation.rs`: `Computation`. -/
structure Computation where
  t : ℚ
  object : Nat
  point : Point
  over_point : Point
  under_point : Point
  eyev : Vector
  normalv : Vector
  inside : Bool
  reflectv : Vector
  n1 : ℚ
  n2 : ℚ
deriving DecidableEq, Repr

/-- `Computation::new(ray, i, xs)`. -/
def Computation.new (ops : FOps) (store : List Object) (ray : Ray)
    (i : Intersection) (xs : List Intersection) : Computation :=
  let nn := n1n2Loop store i [] xs
  let point := ray.position i.t
  let eyev := ray.direction.neg
  let normalv0 := (store.getD i.object Object.default).normal_at ops point
  let inside : Bool := decide (normalv0.dot_product eyev < 0)
  let normalv := if normalv0.dot_product eyev < 0 then normalv0.neg else normalv0
  { t := i.t
    object := i.object
    point := point
    over_point := point.addV (normalv.mulS EPSILON)
    under_point := point.subV (normalv.mulS EPSILON)
    eyev := eyev
    normalv := normalv
    inside := inside
    reflectv := ray.direction.reflect normalv
    n1 := nn.1
    n2 := nn.2 }

/-- `Computation::shlick()`: the Schlick reflectance approximation. -/
def Computation.shlick (ops : FOps) (c : Computation) : ℚ :=
  let cos := c.eyev.dot_product c.normalv
  if c.n1 > c.n2 then
    let n := c.n1 / c.n2
    let sin2_t := n ^ 2 * (1 - cos ^ 2)
    if sin2_t > 1 then 1
    else
      let cos2 := ops.sqrt (1 - sin2_t)
      let r0 := ((c.n1 - c.n2) / (c.n1 + c.n2)) ^ 2
      r0 + (1 - r0) * (1 - cos2) ^ 5
  else
    let r0 := ((c.n1 - c.n2) / (c.n1 + c.n2)) ^ 2
    r0 + (1 - r0) * (1 - cos) ^ 5

/-- `world.rs`: `World { light, objects }`. -/
structure World where
  light : Light
  objects : List Object

namespace World

/-- `World::intersect`: concatenate every object's tagged intersections in
object order; `None` if empty, else the list sorted by `t`. -/
def intersect (ops : FOps) (w : World) (ray : Ray) : Option (List Intersection) :=
  let result := (List.range w.objects.length).flatMap (fun idx =>
    match Intersection.intersects ops w.objects idx ray with
    | some ixs => ixs
    | none => [])
  if result.isEmpty then none else some (sort_intersections result)

/-- `World::is_shadowed(point)`. -/
def is_shadowed (ops : FOps) (w : World) (point : Point) : Bool :=
  let v := w.light.position.subP point
  let distance := v.magnitude ops
  let direction := v.normalize ops
  match w.intersect ops ⟨point, direction⟩ with
  | some ixs =>
    match hit ixs with
    | some h => decide (h.t < distance)
    | none => false
  | none => false

mutual

/-- `World::shade_hit(comps, remaining)`. -/
def shade_hit (ops : FOps) (w : World) (comps : Computation) (remaining : Nat) :
    Color :=
  let obj := w.objects.getD comps.object Object.default
  let surface := obj.material.lighting ops w.light obj comps.point comps.eyev
    comps.normalv (w.is_shadowed ops comps.over_point)
  if obj.material.reflective > 0 ∧ obj.material.transparency > 0 then
    let reflectance := comps.shlick ops
    (surface.add ((reflected_color ops w comps remaining).mulS reflectance)).add
      ((refracted_color ops w comps remaining).mulS (1 - reflectance))
  else
    (surface.add (reflected_color ops w comps remaining)).add
      (refracted_color ops w comps remaining)
termination_by (remaining, 1)

/-- `World::color_at(ray, remaining)`.  Note the `Computation` is built from
the *empty* intersection list `&[]`, exactly as in the source. -/
def color_at (ops : FOps) (w : World) (ray : Ray) (remaining : Nat) : Color :=
  match w.intersect ops ray with
  | some ixs =>
    match hit ixs with
    | some h => shade_hit ops w (Computation.new ops w.objects ray h []) remaining
    | none => BLACK
  | none => BLACK
termination_by (remaining, 2)

/-- `World::reflected_color(comps, remaining)`. -/
def reflected_color (ops : FOps) (w : World) (comps : Computation)
    (remaining : Nat) : Color :=
  match remaining with
  | 0 => BLACK
  | n + 1 =>
    if (w.objects.getD comps.object Object.default).material.reflective = 0 then
      BLACK
    else
      (color_at ops w ⟨comps.over_point, comps.reflectv⟩ n).mulS
        (w.objects.getD comps.object Object.default).material.reflective
termination_by (remaining, 0)

/-- `World::refracted_color(comps, remaining)`. -/
def refracted_color (ops : FOps) (w : World) (comps : Computation)
    (remaining : Nat) : Color :=
  if (w.objects.getD comps.object Object.default).material.transparency = 0 then
    BLACK
  else
    match remaining with
    | 0 => BLACK
    | n + 1 =>
      let n_ratio := comps.n1 / comps.n2
      let cos_i := comps.eyev.dot_product comps.normalv
      let sin2_t := n_ratio ^ 2 * (1 - cos_i ^ 2)
      if sin2_t > 1 then BLACK
      else
        let cos_t := ops.sqrt (1 - sin2_t)
        let direction := (comps.normalv.mulS (n_ratio * cos_i - cos_t)).sub
          (comps.eyev.mulS n_ratio)
        (color_at ops w ⟨comps.under_point, direction⟩ n).mulS
          (w.objects.getD comps.object Object.default).material.transparency
termination_by (remaining, 0)

end

end World

/-- The claim's own description of the `n1`/`n2` computation, written from
the spec sentence rather than the loop: split the sorted list at the first
intersection equal to the target `i`; `n1` is the refractive index of the
last element of the containment list built by toggling membership over the
prefix (1.0 if empty); the intersected object is then toggled once more for
`i` itself, and `n2` is the last element of the resulting list (1.0 if
empty); if `i` is never reached both stay 1.0. -/
def n1n2Spec (store : List Object) (i : Intersection) (xs : List Intersection) :
    ℚ × ℚ :=
  match xs.dropWhile (fun x => !(Intersection.peq store i x)) with
  | [] => (1, 1)
  | xk :: _ =>
    let cb := (xs.takeWhile (fun x => !(Intersection.peq store i x))).foldl
      (fun cs x => toggleContainer store cs x.object) []
    (lastRefr store cb 1, lastRefr store (toggleContainer store cb xk.object) 1)

/-- A trivial operation record for concrete witnesses (`sqrt`/`powf`
constantly 0; `0 ≤ 0` makes it satisfy the nonnegativity hypotheses). -/
def ops0 : FOps := ⟨fun _ => 0, fun _ _ => 0⟩

/-- A concrete ray for witnesses. -/
def ray0 : Ray := ⟨Point.new 0 0 0, Vector.new 0 0 1⟩

/-- A glass sphere (material of the repository's `glass_sphere()` test
helper, refractive index `ri`) carrying transform `tr`. -/
def glassWith (ri : ℚ) (tr : Matrice) : Object :=
  ((Object.new? { Material.default with transparency := 1, refractive_index := ri }
    Shape.Sphere Matrice.identity).bind
      (fun o => o.set_transformation? tr)).getD Object.default

/-- The three-sphere store of the repository's
`find_n1_n2_various_intersections` test (A, B, C). -/
def n1n2Store : List Object :=
  [glassWith (3/2) (scaling 2 2 2), glassWith 2 (translation 0 0 (-1/4)),
    glassWith (5/2) (translation 0 0 (1/4))]

/-- The six intersections of that test, sorted by `t`. -/
def n1n2Xs : List Intersection :=
  [⟨0, 2⟩, ⟨1, 11/4⟩, ⟨2, 13/4⟩, ⟨1, 19/4⟩, ⟨2, 21/4⟩, ⟨0, 6⟩]

/-- A glass sphere with identity transform. -/
def glassObj : Object := glassWith (3/2) Matrice.identity

/-- Two *distinct* store slots (addresses 0 and 1) holding objects with
identical fields. -/
def c2store : List Object := [glassObj, glassObj]

/-- A ray entering object 0 at `t = 1` and object 1 at `t = 2`. -/
def c2xs : List Intersection := [⟨0, 1⟩, ⟨1, 2⟩]

/-- An unsorted intersection list with mixed positive and negative `t`. -/
def c4unsorted : List Intersection := [⟨0, 3⟩, ⟨0, -1⟩, ⟨0, 1⟩]

/-- A sorted intersection list with mixed positive and negative `t`. -/
def c4sorted : List Intersection := [⟨0, -2⟩, ⟨0, 1⟩, ⟨0, 2⟩]

/-- The ray of the repository's `scaled_sphere_with_ray` test. -/
def ray8 : Ray := ⟨Point.new 0 0 (-5), Vector.new 0 0 1⟩

/-- A one-object world whose object has the default material
(`reflective = 0`, `transparency = 0`). -/
def wDefault : World := ⟨⟨Point.new 0 0 0, WHITE⟩, [Object.default]⟩

/-- A one-object world whose object is both reflective and transparent. -/
def wReflTrans : World :=
  ⟨⟨Point.new 0 0 0, WHITE⟩,
    [(Object.new? { Material.default with reflective := 1/2, transparency := 1/2 }
      Shape.default Matrice.identity).getD Object.default]⟩

/-- A concrete precomputation record referring to object 0 of a world. -/
def comps0 : Computation :=
  { t := 1
    object := 0
    point := Point.new 0 0 1
    over_point := Point.new 0 0 1
    under_point := Point.new 0 0 1
    eyev := Vector.new 0 0 (-1)
    normalv := Vector.new 0 0 (-1)
    inside := false
    reflectv := Vector.new 0 0 1
    n1 := 1
    n2 := 1 }

theorem Matrice.submatrix_size (m : Matrice) (r c : Nat) :
    (m.submatrix r c).size = m.size - 1 := rfl

/-- Unfolding of `determinant` in terms of `cofactor`, matching the source
text of `determinant` for sizes other than 2. -/
theorem Matrice.determinant_expand (m : Matrice) (h : m.size ≠ 2) :
    m.determinant =
      ((List.range m.size).map (fun c => m.element_at 0 c * m.cofactor 0 c)).sum := by
  cases hs : m.size with
  | zero =>
    rw [Matrice.determinant, hs]
    simp [Matrice.detAux]
  | succ n =>
    rw [Matrice.determinant, hs]
    rw [Matrice.detAux, if_neg (hs ▸ h)]
    simp only [Matrice.cofactor, Matrice.minor, Matrice.determinant,
      Matrice.submatrix_size, hs, Nat.succ_sub_one]

theorem getD_map_range {α : Type} (f : Nat → α) (n i : Nat) (d : α)
    (h : i < n) : ((List.range n).map f).getD i d = f i := by
  rw [List.getD_eq_getElem?_getD]
  simp [List.getElem?_map, List.getElem?_range, h]

/-- C9: `Matrice::inverse` signals its fatal failure (modelled as `none`)
exactly when the determinant is 0; for a nonzero determinant it returns
normally with `inverse[c][r] = cofactor(r, c) / det`, so under the callers'
invertibility precondition the failure branch is unreachable. -/
theorem claim9_inverse (m : Matrice) :
    (m.inverse? = none ↔ m.determinant = 0) ∧
    (m.determinant ≠ 0 →
      ∃ out, m.inverse? = some out ∧
        ∀ r c, r < m.size → c < m.size →
          out.element_at c r = m.cofactor r c / m.determinant) := by
  constructor
  · unfold Matrice.inverse?
    by_cases h : m.determinant = 0 <;> simp [h]
  · intro h
    refine ⟨m.inverseBody, by simp [Matrice.inverse?, h], ?_⟩
    intro r c hr hc
    unfold Matrice.inverseBody Matrice.element_at
    simp only
    rw [getD_map_range _ _ _ _ hc, getD_map_range _ _ _ _ hr]

/-- Witness for C9 at the 4×4 identity matrix (determinant 1). -/
theorem claim9_witness :
    Matrice.identity.determinant ≠ 0 ∧
    ∃ out, Matrice.identity.inverse? = some out ∧
      ∀ r c, r < Matrice.identity.size → c < Matrice.identity.size →
        out.element_at c r = Matrice.identity.cofactor r c / Matrice.identity.determinant := by
  have hdet : Matrice.identity.determinant ≠ 0 := by with_unfolding_all decide
  exact ⟨hdet, (claim9_inverse Matrice.identity).2 hdet⟩

/-- C3 (code bug): after `set_transformation(translation(1,0,0))` on the
default object, the cached inverse is the true inverse
`translation(-1,0,0)`, but the cached inverse-transpose still holds the
stale identity, which differs from `transpose(inverse(T))`. -/
theorem claim3_stale_cache :
    ((Object.new? Material.default Shape.default Matrice.identity).bind
        (fun o => o.set_transformation? (translation 1 0 0))).map
      (fun o => (o.transformation_inverse, o.transformation_inverse_transpose))
      = some (translation (-1) 0 0, Matrice.identity) ∧
    (translation 1 0 0).inverse? = some (translation (-1) 0 0) ∧
    Matrice.identity ≠ (translation (-1) 0 0).transpose := by
  with_unfolding_all decide

theorem tuple_approxEq_refl (t : Tuple) : Tuple.approxEq t t = true := by
  simp [Tuple.approxEq, sub_self, abs_zero, EPSILON]

theorem color_peq_refl (c : Color) : Color.peq c c = true := tuple_approxEq_refl _

theorem patternType_peq_refl (p : PatternType) : PatternType.peq p p = true := by
  cases p <;> simp [PatternType.peq, color_peq_refl]

theorem pattern_peq_refl (p : Pattern) : Pattern.peq p p = true := by
  simp [Pattern.peq, patternType_peq_refl]

theorem optionPeq_refl (p : α → α → Bool) (hrefl : ∀ a, p a a = true) :
    ∀ o, optionPeq p o o = true := by
  intro o
  cases o <;> simp [optionPeq, hrefl]

theorem material_peq_refl (m : Material) : Material.peq m m = true := by
  simp [Material.peq, color_peq_refl, optionPeq_refl Pattern.peq pattern_peq_refl]

theorem object_peq_refl (o : Object) : Object.peq o o = true := by
  simp [Object.peq, material_peq_refl]

theorem intersection_peq_refl (store : List Object) (x : Intersection) :
    Intersection.peq store x x = true := by
  simp [Intersection.peq, object_peq_refl]

theorem hit_none_iff (xs : List Intersection) :
    hit xs = none ↔ ∀ x ∈ xs, ¬ (0 < x.t) := by
  simp [hit, List.find?_eq_none]

theorem hit_some_mem_pos {xs : List Intersection} {h : Intersection}
    (hh : hit xs = some h) : h ∈ xs ∧ 0 < h.t := by
  refine ⟨List.mem_of_find?_eq_some hh, ?_⟩
  have := List.find?_some hh
  simpa using this

theorem hit_some_minimal {xs : List Intersection}
    (hs : List.Sorted (fun a b : Intersection => a.t ≤ b.t) xs)
    {h : Intersection} (hh : hit xs = some h) :
    ∀ x ∈ xs, 0 < x.t → h.t ≤ x.t := by
  induction xs with
  | nil => simp [hit] at hh
  | cons a rest ih =>
    by_cases hpa : 0 < a.t
    · have ha : h = a := by
        simp [hit, List.find?_cons, hpa] at hh
        exact hh.symm
      subst ha
      intro x hx hxp
      rcases List.mem_cons.mp hx with rfl | hx
      · exact le_refl _
      · exact (List.sorted_cons.mp hs).1 x hx
    · have hh2 : hit rest = some h := by
        simpa [hit, List.find?_cons, hpa] using hh
      intro x hx hxp
      rcases List.mem_cons.mp hx with rfl | hx
      · exact absurd hxp hpa
      · exact ih (List.sorted_cons.mp hs).2 hh2 x hx hxp

/-- C4 (amended: for a list *sorted by `t`*): `hit` returns the
intersection with the smallest positive `t` (tangent `t = 0` and
behind-origin `t < 0` intersections are never hits), and returns `none`
exactly when no intersection has positive `t`. -/
theorem claim4_hit_smallest_positive (xs : List Intersection)
    (hs : List.Sorted (fun a b : Intersection => a.t ≤ b.t) xs) :
    (∀ h, hit xs = some h →
      h ∈ xs ∧ 0 < h.t ∧ ∀ x ∈ xs, 0 < x.t → h.t ≤ x.t) ∧
    (hit xs = none ↔ ∀ x ∈ xs, ¬ (0 < x.t)) :=
  ⟨fun _ hh => ⟨(hit_some_mem_pos hh).1, (hit_some_mem_pos hh).2,
    hit_some_minimal hs hh⟩, hit_none_iff xs⟩

/-- C4 counterexample: on the unsorted mixed list `[3, -1, 1]` `hit`
returns the intersection with `t = 3`, although an intersection with the
smaller positive `t = 1` is in the list. -/
theorem claim4_counterexample :
    hit c4unsorted = some ⟨0, 3⟩ ∧ (⟨0, 1⟩ : Intersection) ∈ c4unsorted ∧
    (0 : ℚ) < 1 ∧ ¬ ((3 : ℚ) ≤ 1) := by
  with_unfolding_all decide

/-- Witness for C4 on the sorted mixed list `[-2, 1, 2]`. -/
theorem claim4_witness :
    hit c4sorted = some ⟨0, 1⟩ ∧ ((⟨0, 1⟩ : Intersection) ∈ c4sorted ∧
      0 < (⟨0, 1⟩ : Intersection).t ∧
      ∀ x ∈ c4sorted, 0 < x.t → (⟨0, 1⟩ : Intersection).t ≤ x.t) := by
  have hhit : hit c4sorted = some ⟨0, 1⟩ := by with_unfolding_all decide
  have hsorted : List.Sorted (fun a b : Intersection => a.t ≤ b.t) c4sorted := by
    simp [c4sorted, List.sorted_cons]
    norm_num
  exact ⟨hhit, (claim4_hit_smallest_positive c4sorted hsorted).1 _ hhit⟩

theorem n1n2Loop_eq_spec (store : List Object) (i : Intersection) :
    ∀ (xs : List Intersection) (containers : List Nat),
      n1n2Loop store i containers xs =
        match xs.dropWhile (fun x => !(Intersection.peq store i x)) with
        | [] => (1, 1)
        | xk :: _ =>
          let cb := (xs.takeWhile (fun x => !(Intersection.peq store i x))).foldl
            (fun cs x => toggleContainer store cs x.object) containers
          (lastRefr store cb 1, lastRefr store (toggleContainer store cb xk.object) 1) := by
  intro xs
  induction xs with
  | nil => intro c; rfl
  | cons x rest ih =>
    intro c
    by_cases hx : Intersection.peq store i x
    · simp [n1n2Loop, hx, List.dropWhile_cons, List.takeWhile_cons]
    · simp [n1n2Loop, hx, List.dropWhile_cons, List.takeWhile_cons, ih]

/-- C1: for every ray, target intersection and sorted intersection list,
the `n1`/`n2` fields of `Computation::new` are computed by the ordered
containment walk the spec describes: toggling membership in order, reading
`n1` from the list top on reaching the target (1.0 if empty), toggling the
intersected object once more for the target itself, and reading `n2` from
the resulting top (1.0 if empty). -/
theorem claim1_n1n2_walk (ops : FOps) (store : List Object) (ray : Ray)
    (i : Intersection) (xs : List Intersection)
    (_hs : List.Sorted (fun a b : Intersection => a.t ≤ b.t) xs) :
    (Computation.new ops store ray i xs).n1 = (n1n2Spec store i xs).1 ∧
    (Computation.new ops store ray i xs).n2 = (n1n2Spec store i xs).2 := by
  have h := n1n2Loop_eq_spec store i xs []
  constructor <;> simp [Computation.new, n1n2Spec, h]

/-- Witness for C1 at the repository's own `find_n1_n2_various_intersections`
data (the second hit, inside sphere A, entering B): `n1 = 1.5`, `n2 = 2`. -/
theorem claim1_witness :
    ((Computation.new ops0 n1n2Store ray0 ⟨1, 11/4⟩ n1n2Xs).n1 =
      (n1n2Spec n1n2Store ⟨1, 11/4⟩ n1n2Xs).1 ∧
     (Computation.new ops0 n1n2Store ray0 ⟨1, 11/4⟩ n1n2Xs).n2 =
      (n1n2Spec n1n2Store ⟨1, 11/4⟩ n1n2Xs).2) ∧
    n1n2Spec n1n2Store ⟨1, 11/4⟩ n1n2Xs = (3/2, 2) := by
  refine ⟨claim1_n1n2_walk ops0 n1n2Store ray0 ⟨1, 11/4⟩ n1n2Xs ?_, ?_⟩
  · simp [n1n2Xs, List.sorted_cons]
    norm_num
  · with_unfolding_all decide

/-- C2 counterexample: store slots 0 and 1 are distinct participants holding
field-identical glass spheres; after a ray enters object 0 (`t = 1`) and
then object 1 (`t = 2`, the target), the claim predicts both stay on the
containment stack (so `n2` would be the glass index 1.5); the code's
value-equality toggle pops object 0, leaving the stack empty and `n2 = 1`. -/
theorem claim2_counterexample :
    Object.peq (c2store.getD 0 Object.default) (c2store.getD 1 Object.default) = true ∧
    toggleContainer c2store (toggleContainer c2store [] 0) 1 = [] ∧
    (Computation.new ops0 c2store ray0 ⟨1, 2⟩ c2xs).n2 = 1 ∧
    (c2store.getD 1 Object.default).material.refractive_index = 3/2 ∧
    ¬ ((1 : ℚ) = 3/2) := by
  with_unfolding_all decide

/-- C2 (amended): identity in the containment tracking is by *value*
(derived `PartialEq`), not by reference: for field-equal objects at
references `a` and `b`, a ray entering `a` and then `b` pops `a` instead of
keeping both, so after the target hit the stack is empty, `n1` is read from
`a`'s object and `n2` stays 1.0. -/
theorem claim2_value_identity (store : List Object) (a b : Nat) (t1 t2 : ℚ)
    (ops : FOps) (ray : Ray)
    (hobj : Object.peq (store.getD a Object.default) (store.getD b Object.default) = true)
    (ht : ¬ (t2 = t1)) :
    toggleContainer store (toggleContainer store [] a) b = [] ∧
    (Computation.new ops store ray ⟨b, t2⟩ [⟨a, t1⟩, ⟨b, t2⟩]).n1 =
      (store.getD a Object.default).material.refractive_index ∧
    (Computation.new ops store ray ⟨b, t2⟩ [⟨a, t1⟩, ⟨b, t2⟩]).n2 = 1 := by
  have htoggle1 : toggleContainer store [] a = [a] := by
    simp [toggleContainer]
  have hobj2 : Object.peq (store[a]?.getD Object.default)
      (store[b]?.getD Object.default) = true := by
    simpa [List.getD_eq_getElem?_getD] using hobj
  have htoggle2 : toggleContainer store [a] b = [] := by
    simp [toggleContainer, List.findIdx?_cons, hobj2]
  have hpeq1 : Intersection.peq store ⟨b, t2⟩ ⟨a, t1⟩ = false := by
    simp [Intersection.peq, ht]
  have hpeq2 : Intersection.peq store ⟨b, t2⟩ ⟨b, t2⟩ = true :=
    intersection_peq_refl _ _
  refine ⟨by rw [htoggle1, htoggle2], ?_, ?_⟩ <;>
    simp [Computation.new, n1n2Loop, hpeq1, hpeq2, htoggle1, htoggle2, lastRefr]

/-- Witness for C2 (amended) at the two-slot glass store. -/
theorem claim2_witness :
    toggleContainer c2store (toggleContainer c2store [] 0) 1 = [] ∧
    (Computation.new ops0 c2store ray0 ⟨1, 2⟩ [⟨0, 1⟩, ⟨1, 2⟩]).n1 =
      (c2store.getD 0 Object.default).material.refractive_index ∧
    (Computation.new ops0 c2store ray0 ⟨1, 2⟩ [⟨0, 1⟩, ⟨1, 2⟩]).n2 = 1 :=
  claim2_value_identity c2store 0 1 1 2 ops0 ray0
    (by with_unfolding_all decide) (by norm_num)

/-- C8: for every ray with nonzero direction (and a square root that is
nonnegative on nonnegative inputs, as `f64::sqrt` is), the canonical-sphere
intersect returns no roots exactly when the discriminant is negative, and
otherwise exactly the two ordered roots `(-b ∓ √disc) / (2a)` with
`t0 ≤ t1`; no other result cardinality occurs. -/
theorem claim8_sphere_roots (ops : FOps) (ray : Ray)
    (hd : ¬ (ray.direction = Vector.new 0 0 0))
    (hsqrt : ∀ q : ℚ, 0 ≤ q → 0 ≤ ops.sqrt q) :
    (sphere_discriminant ray < 0 → intersect_sphere ops ray = none) ∧
    (0 ≤ sphere_discriminant ray →
      intersect_sphere ops ray =
        some [(-sphere_b ray - ops.sqrt (sphere_discriminant ray)) / (2 * sphere_a ray),
          (-sphere_b ray + ops.sqrt (sphere_discriminant ray)) / (2 * sphere_a ray)] ∧
      (-sphere_b ray - ops.sqrt (sphere_discriminant ray)) / (2 * sphere_a ray) ≤
        (-sphere_b ray + ops.sqrt (sphere_discriminant ray)) / (2 * sphere_a ray)) := by
  have ha : 0 < sphere_a ray := by
    rcases ray with ⟨o, d⟩
    rcases d with ⟨⟨dx, dy, dz⟩⟩
    have hne : dx ≠ 0 ∨ dy ≠ 0 ∨ dz ≠ 0 := by
      by_contra hc
      push_neg at hc
      exact hd (by simp [Vector.new, Tuple.new, hc.1, hc.2.1, hc.2.2])
    have hsum : 0 < dx * dx + dy * dy + dz * dz := by
      rcases hne with h | h | h
      · nlinarith [mul_self_pos.mpr h, mul_self_nonneg dy, mul_self_nonneg dz]
      · nlinarith [mul_self_pos.mpr h, mul_self_nonneg dx, mul_self_nonneg dz]
      · nlinarith [mul_self_pos.mpr h, mul_self_nonneg dx, mul_self_nonneg dy]
    simpa [sphere_a, Vector.dot_product, Tuple.dot] using hsum
  constructor
  · intro hneg
    simp [intersect_sphere, hneg]
  · intro hpos
    have hnneg : ¬ sphere_discriminant ray < 0 := not_lt.mpr hpos
    refine ⟨by simp [intersect_sphere, hnneg], ?_⟩
    have hs := hsqrt _ hpos
    have h2a : 0 < 2 * sphere_a ray := by linarith
    exact (div_le_div_iff_of_pos_right h2a).mpr (by linarith)

/-- Witness for C8 at the repository's test ray from `(0,0,-5)` along
`(0,0,1)` (discriminant 4). -/
theorem claim8_witness :
    0 ≤ sphere_discriminant ray8 ∧
    (intersect_sphere ops0 ray8 =
      some [(-sphere_b ray8 - ops0.sqrt (sphere_discriminant ray8)) / (2 * sphere_a ray8),
        (-sphere_b ray8 + ops0.sqrt (sphere_discriminant ray8)) / (2 * sphere_a ray8)] ∧
      (-sphere_b ray8 - ops0.sqrt (sphere_discriminant ray8)) / (2 * sphere_a ray8) ≤
        (-sphere_b ray8 + ops0.sqrt (sphere_discriminant ray8)) / (2 * sphere_a ray8)) := by
  have hdisc : 0 ≤ sphere_discriminant ray8 := by with_unfolding_all decide
  exact ⟨hdisc, (claim8_sphere_roots ops0 ray8 (by with_unfolding_all decide)
    (fun q _ => le_refl 0)).2 hdisc⟩

/-- C5: at remaining depth 0 both `reflected_color` and `refracted_color`
are exactly `BLACK` regardless of the material; and at any depth,
`reflected_color` is `BLACK` when the reflective coefficient is 0 and
`refracted_color` is `BLACK` when the transparency is 0 — each an early
return taken before any secondary ray is constructed. -/
theorem claim5_base_cases (ops : FOps) (w : World) (comps : Computation)
    (n : Nat) :
    World.reflected_color ops w comps 0 = BLACK ∧
    World.refracted_color ops w comps 0 = BLACK ∧
    ((w.objects.getD comps.object Object.default).material.reflective = 0 →
      World.reflected_color ops w comps n = BLACK) ∧
    ((w.objects.getD comps.object Object.default).material.transparency = 0 →
      World.refracted_color ops w comps n = BLACK) := by
  refine ⟨?_, ?_, ?_, ?_⟩
  · rw [World.reflected_color]
  · rw [World.refracted_color.eq_def]
    split <;> rfl
  · intro h
    cases n with
    | zero => rw [World.reflected_color]
    | succ k =>
      rw [World.reflected_color]
      rw [if_pos h]
  · intro h
    rw [World.refracted_color.eq_def]
    rw [if_pos h]

/-- Witness for C5 at a world whose object has the default material
(`reflective = 0`, `transparency = 0`) and a positive depth. -/
theorem claim5_witness :
    World.reflected_color ops0 wDefault comps0 3 = BLACK ∧
    World.refracted_color ops0 wDefault comps0 3 = BLACK :=
  ⟨(claim5_base_cases ops0 wDefault comps0 3).2.2.1 (by with_unfolding_all decide),
   (claim5_base_cases ops0 wDefault comps0 3).2.2.2 (by with_unfolding_all decide)⟩

/-- C6: `shade_hit` returns
`surface + reflected * reflectance + refracted * (1 - reflectance)` with the
Schlick reflectance when the material has both `reflective > 0` and
`transparency > 0`, and the plain sum `surface + reflected + refracted`
otherwise (either coefficient zero). -/
theorem claim6_shade_hit_blend (ops : FOps) (w : World) (comps : Computation)
    (remaining : Nat) :
    (0 < (w.objects.getD comps.object Object.default).material.reflective ∧
     0 < (w.objects.getD comps.object Object.default).material.transparency →
      World.shade_hit ops w comps remaining =
        (((w.objects.getD comps.object Object.default).material.lighting ops w.light
            (w.objects.getD comps.object Object.default) comps.point comps.eyev
            comps.normalv (World.is_shadowed ops w comps.over_point)).add
          ((World.reflected_color ops w comps remaining).mulS (comps.shlick ops))).add
          ((World.refracted_color ops w comps remaining).mulS (1 - comps.shlick ops))) ∧
    ((w.objects.getD comps.object Object.default).material.reflective = 0 ∨
     (w.objects.getD comps.object Object.default).material.transparency = 0 →
      World.shade_hit ops w comps remaining =
        (((w.objects.getD comps.object Object.default).material.lighting ops w.light
            (w.objects.getD comps.object Object.default) comps.point comps.eyev
            comps.normalv (World.is_shadowed ops w comps.over_point)).add
          (World.reflected_color ops w comps remaining)).add
          (World.refracted_color ops w comps remaining)) := by
  constructor
  · intro h
    rw [World.shade_hit, if_pos h]
  · intro h
    have hn : ¬ ((w.objects.getD comps.object Object.default).material.reflective > 0 ∧
        (w.objects.getD comps.object Object.default).material.transparency > 0) := by
      rintro ⟨h1, h2⟩
      rcases h with h | h
      · rw [h] at h1
        exact lt_irrefl 0 h1
      · rw [h] at h2
        exact lt_irrefl 0 h2
    rw [World.shade_hit, if_neg hn]

/-- Witness for C6 at a world whose object is both reflective and
transparent (`reflective = transparency = 1/2`). -/
theorem claim6_witness :
    World.shade_hit ops0 wReflTrans comps0 0 =
      (((wReflTrans.objects.getD comps0.object Object.default).material.lighting ops0
          wReflTrans.light (wReflTrans.objects.getD comps0.object Object.default)
          comps0.point comps0.eyev comps0.normalv
          (World.is_shadowed ops0 wReflTrans comps0.over_point)).add
        ((World.reflected_color ops0 wReflTrans comps0 0).mulS (comps0.shlick ops0))).add
        ((World.refracted_color ops0 wReflTrans comps0 0).mulS (1 - comps0.shlick ops0)) :=
  (claim6_shade_hit_blend ops0 wReflTrans comps0 0).1
    ⟨by with_unfolding_all decide, by with_unfolding_all decide⟩

/-- C10: `color_at` builds the hit's `Computation` from the *empty*
intersection list rather than the full sorted one, and every `Computation`
built from an empty list has `n1 = 1` and `n2 = 1` regardless of the store
and its refractive indices. -/
theorem claim10_color_at_empty_xs (ops : FOps) (w : World) (ray : Ray)
    (remaining : Nat) :
    World.color_at ops w ray remaining =
      (match w.intersect ops ray with
       | some ixs =>
         match hit ixs with
         | some h => World.shade_hit ops w (Computation.new ops w.objects ray h []) remaining
         | none => BLACK
       | none => BLACK) ∧
    ∀ (store : List Object) (i : Intersection),
      (Computation.new ops store ray i []).n1 = 1 ∧
      (Computation.new ops store ray i []).n2 = 1 := by
  refine ⟨by rw [World.color_at], ?_⟩
  intro store i
  constructor <;> simp [Computation.new, n1n2Loop]

theorem sort_intersections_sorted (l : List Intersection) :
    List.Sorted (fun a b : Intersection => a.t ≤ b.t) (sort_intersections l) := by
  have htrans : ∀ a b c : Intersection,
      (fun a b : Intersection => decide (a.t ≤ b.t)) a b = true →
      (fun a b : Intersection => decide (a.t ≤ b.t)) b c = true →
      (fun a b : Intersection => decide (a.t ≤ b.t)) a c = true := by
    intro a b c hab hbc
    simp only [decide_eq_true_eq] at hab hbc ⊢
    exact le_trans hab hbc
  have htotal : ∀ a b : Intersection,
      ((fun a b : Intersection => decide (a.t ≤ b.t)) a b ||
       (fun a b : Intersection => decide (a.t ≤ b.t)) b a) = true := by
    intro a b
    simpa using le_total a.t b.t
  have h := List.sorted_mergeSort htrans htotal l
  exact h.imp (fun hab => by simpa using hab)

theorem intersect_some_sorted (ops : FOps) (w : World) (ray : Ray)
    (ixs : List Intersection) (h : w.intersect ops ray = some ixs) :
    List.Sorted (fun a b : Intersection => a.t ≤ b.t) ixs := by
  simp only [World.intersect] at h
  split at h
  · cases h
  · rw [← Option.some.inj h]
    exact sort_intersections_sorted _

/-- C7: `is_shadowed(p)` returns `true` iff the ray from `p` toward the
light meets some object intersection with `0 < t < distance-to-light`
(equivalently: the hit of that ray, the smallest positive `t`, is strictly
below the distance); otherwise `false`. -/
theorem claim7_is_shadowed_iff (ops : FOps) (w : World) (p : Point) :
    World.is_shadowed ops w p = true ↔
      ∃ ixs, World.intersect ops w
          ⟨p, (w.light.position.subP p).normalize ops⟩ = some ixs ∧
        ∃ x ∈ ixs, 0 < x.t ∧ x.t < (w.light.position.subP p).magnitude ops := by
  cases hI : World.intersect ops w ⟨p, (w.light.position.subP p).normalize ops⟩ with
  | none => simp [World.is_shadowed, hI]
  | some ixs =>
    have hsorted := intersect_some_sorted ops w _ ixs hI
    cases hH : hit ixs with
    | none =>
      have hall := (hit_none_iff ixs).mp hH
      simp [World.is_shadowed, hI, hH]
      intro x hx hpos
      exact absurd hpos (hall x hx)
    | some hh =>
      have hmem := hit_some_mem_pos hH
      simp [World.is_shadowed, hI, hH]
      constructor
      · intro hlt
        exact ⟨hh, hmem.1, hmem.2, hlt⟩
      · rintro ⟨x, hx, hxpos, hxlt⟩
        exact lt_of_le_of_lt (hit_some_minimal hsorted hH x hx hxpos) hxlt

end RT
